import Mathlib

/-!
Verification of the cardano repository core: the BIP32-Ed25519 signer
(src/cardano/module/crypto/bip32.py), the Key wrapper (src/cardano/module/key.py)
and the CBOR serialization substrate (src/cardano/module/serialization.py).

Byte strings are modelled as lists of naturals. The external curve library
(nacl / libsodium) is the trusted Scalar/Point Primitive Adapter of the spec;
it is modelled by an abstract commutative group of points together with a base
point, an encoding function and the scalar arithmetic modulo the group order L.
-/

namespace Cardano

/-- Byte strings, as lists of naturals (each entry a byte value). -/
abbrev Bytes := List Nat

/-- Little-endian interpretation of a byte string as a natural number. -/
def leToNat : Bytes → Nat
  | [] => 0
  | b :: bs => b + 256 * leToNat bs

/-- Little-endian encoding of a natural number into `k` bytes (mod 2^(8k)). -/
def natToLe : Nat → Nat → Bytes
  | 0, _ => []
  | k + 1, n => n % 256 :: natToLe k (n / 256)

/-- The order of the prime subgroup of Ed25519 used by libsodium. -/
def L : Nat := 2 ^ 252 + 27742317777372353535851937790883648493

theorem natToLe_length (k n : Nat) : (natToLe k n).length = k := by
  induction k generalizing n with
  | zero => rfl
  | succ k ih => simp [natToLe, ih]

theorem leToNat_natToLe (k n : Nat) : leToNat (natToLe k n) = n % 256 ^ k := by
  induction k generalizing n with
  | zero => simp [natToLe, leToNat, Nat.mod_one]
  | succ k ih =>
    simp only [natToLe, leToNat, ih]
    rw [pow_succ, Nat.mul_comm (256 ^ k) 256, Nat.mod_mul]

theorem L_pos : 0 < L := by decide

theorem L_lt : L < 256 ^ 32 := by decide

theorem leToNat_natToLe32_of_lt {n : Nat} (h : n < 256 ^ 32) :
    leToNat (natToLe 32 n) = n := by
  rw [leToNat_natToLe, Nat.mod_eq_of_lt h]

theorem leToNat_natToLe32_mod_L (n : Nat) :
    leToNat (natToLe 32 (n % L)) = n % L :=
  leToNat_natToLe32_of_lt (lt_trans (Nat.mod_lt _ L_pos) L_lt)

section Adapter

variable (Point : Type) [AddCommGroup Point] (B : Point)
variable (pointEnc : Point → Bytes) (pointDec : Bytes → Option Point)
variable (SHA512 : Bytes → Bytes)

/-- Modelled from the spec: trusted adapter primitive
`nacl.bindings.crypto_core_ed25519_scalar_reduce` — reduces a byte string,
read little-endian, modulo the group order L (spec section 2, trusted leaf). -/
def crypto_core_ed25519_scalar_reduce (b : Bytes) : Bytes :=
  natToLe 32 (leToNat b % L)

/-- Modelled from the spec: trusted adapter primitive
`nacl.bindings.crypto_core_ed25519_scalar_add` — scalar addition mod L. -/
def crypto_core_ed25519_scalar_add (a b : Bytes) : Bytes :=
  natToLe 32 ((leToNat a + leToNat b) % L)

/-- Modelled from the spec: trusted adapter primitive
`nacl.bindings.crypto_core_ed25519_scalar_mul` — scalar multiplication mod L. -/
def crypto_core_ed25519_scalar_mul (a b : Bytes) : Bytes :=
  natToLe 32 ((leToNat a * leToNat b) % L)

/-- Modelled from the spec: trusted adapter primitive
`nacl.bindings.crypto_scalarmult_ed25519_base_noclamp` — unclamped
base-point scalar multiplication, returning the encoded point. -/
def crypto_scalarmult_ed25519_base_noclamp (n : Bytes) : Bytes :=
  pointEnc (leToNat n • B)

end Adapter

/-- `BIP32ED25519PrivateKey.__init__` stores the 64-byte private material and
the chain code (src/cardano/module/crypto/bip32.py lines 27-33). -/
structure BIP32ED25519PrivateKey where
  private_key : Bytes
  chain_code : Bytes

/-- `self.left = self.private_key[:32]`. -/
def BIP32ED25519PrivateKey.left (k : BIP32ED25519PrivateKey) : Bytes :=
  k.private_key.take 32

/-- `self.right = self.private_key[32:]`. -/
def BIP32ED25519PrivateKey.right (k : BIP32ED25519PrivateKey) : Bytes :=
  k.private_key.drop 32

section Signer

variable (Point : Type) [AddCommGroup Point] (B : Point)
variable (pointEnc : Point → Bytes) (pointDec : Bytes → Option Point)
variable (SHA512 : Bytes → Bytes)

/-- `self.public_key = bindings.crypto_scalarmult_ed25519_base_noclamp(self.left)`
computed in `BIP32ED25519PrivateKey.__init__`. -/
def BIP32ED25519PrivateKey.public_key (k : BIP32ED25519PrivateKey) : Bytes :=
  crypto_scalarmult_ed25519_base_noclamp Point B pointEnc k.left

/-- `BIP32ED25519PrivateKey.sign` (src/cardano/module/crypto/bip32.py
lines 35-47), with `hashlib.sha512(x).digest()` as the abstract `SHA512`. -/
def BIP32ED25519PrivateKey.sign (k : BIP32ED25519PrivateKey) (message : Bytes) :
    Bytes :=
  let r := crypto_core_ed25519_scalar_reduce (SHA512 (k.right ++ message))
  let R := crypto_scalarmult_ed25519_base_noclamp Point B pointEnc r
  let hram := crypto_core_ed25519_scalar_reduce
    (SHA512 (R ++ BIP32ED25519PrivateKey.public_key Point B pointEnc k ++ message))
  let S := crypto_core_ed25519_scalar_add
    (crypto_core_ed25519_scalar_mul hram k.left) r
  R ++ S

/-- The Signer contract written from the words of spec section 4.2: nonce
`r = reduce(SHA512(rightHalf || message))`, commitment `R = basePointMul(r)`
(unclamped), challenge `h = reduce(SHA512(R || publicKey || message))`,
response `S = (h * leftHalf + r) mod L`, returning `R || S`, with the left
half used as-is (no clamping at sign time). -/
def signSpec (k : BIP32ED25519PrivateKey) (message : Bytes) : Bytes :=
  let r := leToNat (SHA512 (k.right ++ message)) % L
  let R := pointEnc (r • B)
  let h := leToNat (SHA512 (R ++ BIP32ED25519PrivateKey.public_key Point B pointEnc k
    ++ message)) % L
  let S := (h * leToNat k.left + r) % L
  R ++ natToLe 32 S

end Signer

/-- Modelled from the spec: the Python exceptions visible to this core.
The exception module of this repository is not under src/; spec section 7
names the taxonomy. `badSignatureError` is the error raised by the nacl
binding `crypto_sign_open` on any verification failure; `assertionError` and
`recursionError` are the Python builtins; `deserializeException` carries the
allowed kind names and the received kind name that the source formats into
its message string. -/
inductive PyErr where
  | badSignatureError
  | malformedSignatureError
  | assertionError
  | unsupportedTypeError
  | recursionError
  | deserializeException (allowed : List String) (got : String)
deriving DecidableEq, Repr

/-- `BIP32ED25519PublicKey.__init__` (src/cardano/module/crypto/bip32.py
lines 50-53). -/
structure BIP32ED25519PublicKey where
  public_key : Bytes
  chain_code : Bytes

section Verifier

variable (Point : Type) [AddCommGroup Point] (B : Point)
variable (pointEnc : Point → Bytes) (pointDec : Bytes → Option Point)
variable (SHA512 : Bytes → Bytes)

/-- `BIP32ED25519PublicKey.from_private_key` (bip32.py lines 56-60): the
public point of the private key, paired with the same chain code. -/
def BIP32ED25519PublicKey.from_private_key (k : BIP32ED25519PrivateKey) :
    BIP32ED25519PublicKey :=
  { public_key := BIP32ED25519PrivateKey.public_key Point B pointEnc k
    chain_code := k.chain_code }

/-- Modelled from the spec: trusted adapter primitive
`nacl.bindings.crypto_sign_open` — the standard Ed25519 verification
equation (spec section 4.2). It parses the first 64 bytes of the signed
message as `R || S`, rejects a non-canonical `S`, recomputes the challenge
and compares `[S]B - [h]A` with `R`; it raises `BadSignatureError` on any
failure and returns the opened message on success. -/
def crypto_sign_open (sm pk : Bytes) : Except PyErr Bytes :=
  if sm.length < 64 then Except.error PyErr.badSignatureError
  else if L ≤ leToNat ((sm.drop 32).take 32) then
    Except.error PyErr.badSignatureError
  else
    match pointDec pk with
    | Option.none => Except.error PyErr.badSignatureError
    | Option.some A =>
      if pointEnc (leToNat ((sm.drop 32).take 32) • B
            - (leToNat (SHA512 (sm.take 32 ++ pk ++ sm.drop 64)) % L) • A)
          = sm.take 32
      then Except.ok (sm.drop 64)
      else Except.error PyErr.badSignatureError

/-- `BIP32ED25519PublicKey.verify` (bip32.py lines 62-63):
`bindings.crypto_sign_open(signature + message, self.public_key)`. -/
def BIP32ED25519PublicKey.verify (k : BIP32ED25519PublicKey)
    (signature message : Bytes) : Except PyErr Bytes :=
  crypto_sign_open Point B pointEnc pointDec SHA512 (signature ++ message)
    k.public_key

end Verifier

theorem take_len_append {α : Type} {n : Nat} (xs ys : List α)
    (h : xs.length = n) : (xs ++ ys).take n = xs := by
  subst h; exact List.take_left xs ys

theorem drop_len_append {α : Type} {n : Nat} (xs ys : List α)
    (h : xs.length = n) : (xs ++ ys).drop n = ys := by
  subst h; exact List.drop_left xs ys

theorem nsmul_mod_order {Point : Type} [AddCommGroup Point] {B : Point}
    (horder : L • B = 0) (n : Nat) : (n % L) • B = n • B := by
  conv_rhs =>
    rw [← Nat.div_add_mod n L, add_nsmul, mul_nsmul, horder, smul_zero,
      zero_add]

theorem sig_equation {Point : Type} [AddCommGroup Point] {B : Point}
    (horder : L • B = 0) (h a r : Nat) :
    (((h % L * a) % L + r % L) % L) • B - (h % L) • (a • B) = (r % L) • B := by
  rw [Nat.mod_add_mod, Nat.add_mod_mod, nsmul_mod_order horder (h % L * a + r),
    add_nsmul, Nat.mul_comm (h % L) a, mul_nsmul, add_sub_cancel_left,
    nsmul_mod_order horder r]

/-- If the first 64 bytes of the signed message decompose as
`pointEnc X || natToLe 32 s` with `s` canonical and the verification equation
holds, `crypto_sign_open` succeeds and returns the trailing message. -/
theorem crypto_sign_open_ok (Point : Type) [AddCommGroup Point] (B : Point)
    (pointEnc : Point → Bytes) (pointDec : Bytes → Option Point)
    (SHA512 : Bytes → Bytes)
    (hlen : ∀ P, (pointEnc P).length = 32)
    (hdec : ∀ P, pointDec (pointEnc P) = Option.some P)
    (X A : Point) (s : Nat) (m : Bytes) (hs : s < L)
    (heq : s • B - (leToNat (SHA512 (pointEnc X ++ pointEnc A ++ m)) % L) • A
      = X) :
    crypto_sign_open Point B pointEnc pointDec SHA512
      ((pointEnc X ++ natToLe 32 s) ++ m) (pointEnc A) = Except.ok m := by
  have e0 : (pointEnc X ++ natToLe 32 s) ++ m
      = pointEnc X ++ (natToLe 32 s ++ m) := List.append_assoc _ _ _
  have eTake : ((pointEnc X ++ natToLe 32 s) ++ m).take 32 = pointEnc X := by
    rw [e0]; exact take_len_append _ _ (hlen X)
  have eDrop32 : ((pointEnc X ++ natToLe 32 s) ++ m).drop 32
      = natToLe 32 s ++ m := by
    rw [e0]; exact drop_len_append _ _ (hlen X)
  have eM : ((pointEnc X ++ natToLe 32 s) ++ m).drop 64 = m := by
    apply drop_len_append
    rw [List.length_append, hlen X, natToLe_length]
  have eLen : ¬ (((pointEnc X ++ natToLe 32 s) ++ m).length < 64) := by
    rw [List.length_append, List.length_append, hlen X, natToLe_length]
    omega
  have eSval : leToNat ((((pointEnc X ++ natToLe 32 s) ++ m).drop 32).take 32)
      = s := by
    rw [eDrop32, take_len_append _ _ (natToLe_length 32 s),
      leToNat_natToLe32_of_lt (lt_trans hs L_lt)]
  unfold crypto_sign_open
  rw [if_neg eLen, eSval, eTake, eM, if_neg (not_le.mpr hs), hdec A]
  show (if pointEnc (s • B
          - (leToNat (SHA512 (pointEnc X ++ pointEnc A ++ m)) % L) • A)
        = pointEnc X then Except.ok m else Except.error PyErr.badSignatureError)
      = Except.ok m
  rw [if_pos (congrArg pointEnc heq)]

/-- Claim C2 (amended): `verify` delegates everything to `crypto_sign_open`
on `signature + message`; for any input it either raises `BadSignatureError`
(including for a well-formed 64-byte invalid signature and for signatures of
the wrong length — there is no `MalformedSignatureError` path) or succeeds,
returning the opened message rather than a boolean. -/
theorem verify_error_or_message (Point : Type) [AddCommGroup Point]
    (B : Point) (pointEnc : Point → Bytes) (pointDec : Bytes → Option Point)
    (SHA512 : Bytes → Bytes) (k : BIP32ED25519PublicKey)
    (signature message : Bytes) :
    BIP32ED25519PublicKey.verify Point B pointEnc pointDec SHA512 k
        signature message = Except.error PyErr.badSignatureError
      ∨ BIP32ED25519PublicKey.verify Point B pointEnc pointDec SHA512 k
        signature message = Except.ok ((signature ++ message).drop 64) := by
  unfold BIP32ED25519PublicKey.verify crypto_sign_open
  split
  · exact Or.inl rfl
  · split
    · exact Or.inl rfl
    · split
      · exact Or.inl rfl
      · split
        · exact Or.inr rfl
        · exact Or.inl rfl

/-- Claim C3: verifying `sign(k, m)` with the public key obtained from `k`
(the base-point multiple of the left half, with the same chain code)
succeeds, i.e. `crypto_sign_open` accepts and returns the message. -/
theorem verify_of_sign_ok (Point : Type) [AddCommGroup Point] (B : Point)
    (pointEnc : Point → Bytes) (pointDec : Bytes → Option Point)
    (SHA512 : Bytes → Bytes)
    (hlen : ∀ P, (pointEnc P).length = 32)
    (hdec : ∀ P, pointDec (pointEnc P) = Option.some P)
    (horder : L • B = 0)
    (k : BIP32ED25519PrivateKey) (m : Bytes) :
    BIP32ED25519PublicKey.verify Point B pointEnc pointDec SHA512
      (BIP32ED25519PublicKey.from_private_key Point B pointEnc k)
      (BIP32ED25519PrivateKey.sign Point B pointEnc SHA512 k m) m
      = Except.ok m := by
  unfold BIP32ED25519PublicKey.verify BIP32ED25519PublicKey.from_private_key
    BIP32ED25519PrivateKey.sign BIP32ED25519PrivateKey.public_key
    crypto_core_ed25519_scalar_reduce crypto_core_ed25519_scalar_add
    crypto_core_ed25519_scalar_mul crypto_scalarmult_ed25519_base_noclamp
  simp only [leToNat_natToLe32_mod_L]
  exact crypto_sign_open_ok Point B pointEnc pointDec SHA512 hlen hdec
    _ _ _ m (Nat.mod_lt _ L_pos) (sig_equation horder _ _ _)

instance : NeZero L := ⟨by decide⟩

/-- A concrete instance of the trusted adapter, for witnesses: the scalar
ring `ZMod L` as the point group, with base point 1. -/
def toyEnc (x : ZMod L) : Bytes := natToLe 32 x.val

/-- Decoding for the concrete adapter instance. -/
def toyDec (b : Bytes) : Option (ZMod L) :=
  if b.length = 32 then Option.some ((leToNat b : Nat) : ZMod L)
  else Option.none

/-- A concrete stand-in for the abstract SHA512 parameter. -/
def toySHA (_b : Bytes) : Bytes := List.replicate 64 1

theorem toyEnc_length (P : ZMod L) : (toyEnc P).length = 32 :=
  natToLe_length _ _

theorem toyDec_toyEnc (P : ZMod L) : toyDec (toyEnc P) = Option.some P := by
  unfold toyDec toyEnc
  rw [if_pos (natToLe_length _ _),
    leToNat_natToLe32_of_lt (lt_trans (ZMod.val_lt P) L_lt)]
  exact congrArg Option.some (ZMod.natCast_rightInverse P)

theorem toyOrder : L • (1 : ZMod L) = 0 := by
  rw [nsmul_eq_mul, mul_one, ZMod.natCast_self]

/-- A concrete extended private key for witnesses. -/
def keyW : BIP32ED25519PrivateKey :=
  { private_key := List.replicate 64 7, chain_code := List.replicate 32 0 }

/-- Witness for C3: a concrete key and message on the concrete adapter. -/
theorem verify_of_sign_ok_witness :
    BIP32ED25519PublicKey.verify (ZMod L) 1 toyEnc toyDec toySHA
      (BIP32ED25519PublicKey.from_private_key (ZMod L) 1 toyEnc keyW)
      (BIP32ED25519PrivateKey.sign (ZMod L) 1 toyEnc toySHA keyW [1, 2, 3])
      [1, 2, 3]
      = Except.ok [1, 2, 3] :=
  verify_of_sign_ok (ZMod L) 1 toyEnc toyDec toySHA toyEnc_length
    toyDec_toyEnc toyOrder keyW [1, 2, 3]

/-- Counterexample to claim C2 as stated: on a structurally well-formed
64-byte but invalid signature, `verify` propagates `BadSignatureError` from
`crypto_sign_open` instead of returning false, and on a wrong-length
signature it raises that same error — `MalformedSignatureError` does not
occur anywhere in the code. -/
theorem verify_raises_cex :
    BIP32ED25519PublicKey.verify (ZMod L) 1 toyEnc toyDec toySHA
        (BIP32ED25519PublicKey.mk (toyEnc 1) (List.replicate 32 0))
        (List.replicate 64 255) [] = Except.error PyErr.badSignatureError
    ∧ BIP32ED25519PublicKey.verify (ZMod L) 1 toyEnc toyDec toySHA
        (BIP32ED25519PublicKey.mk (toyEnc 1) (List.replicate 32 0))
        [0] [] = Except.error PyErr.badSignatureError
    ∧ PyErr.badSignatureError ≠ PyErr.malformedSignatureError :=
  ⟨rfl, rfl, by decide⟩

/-- The class-level constants `KEY_TYPE` and `DESCRIPTION` of a `Key` subclass
(src/cardano/module/key.py lines 36-37 and 219-235). -/
structure KeyClass where
  KEY_TYPE : String
  DESCRIPTION : String

/-- A `Key` instance: payload plus the two metadata strings. -/
structure Key where
  payload : Bytes
  key_type : String
  description : String

/-- Python `x or d` for an optional string argument: `None` and the empty
string are falsy, so they fall back to the default. -/
def pyOr (x : Option String) (d : String) : String :=
  match x with
  | Option.none => d
  | some s => if s = "" then d else s

/-- `Key.__init__` (src/cardano/module/key.py lines 39-47):
`self._key_type = key_type or self.KEY_TYPE` and
`self._description = description or self.KEY_TYPE`. -/
def Key.init (C : KeyClass) (payload : Bytes)
    (key_type description : Option String) : Key :=
  { payload := payload
    key_type := pyOr key_type C.KEY_TYPE
    description := pyOr description C.KEY_TYPE }

/-- `Key.__eq__` (src/cardano/module/key.py lines 133-141): equal payloads,
descriptions and key types (any two `Key` instances are comparable). -/
def Key.py_eq (a b : Key) : Bool :=
  a.payload == b.payload && a.description == b.description
    && a.key_type == b.key_type

/-- `Key.__hash__` (src/cardano/module/key.py lines 146-147):
`hash(self.payload)`, with the builtin Python `hash` on bytes abstracted as a parameter. -/
def Key.py_hash (pyHash : Bytes → Int) (k : Key) : Int :=
  pyHash k.payload

/-- The constants of `PaymentSigningKey` (src/cardano/module/key.py 219-221). -/
def PaymentSigningKey : KeyClass :=
  { KEY_TYPE := "PaymentSigningKeyShelley_ed25519"
    DESCRIPTION := "Payment Signing Key" }

/-- The CBOR `Primitive` value model of src/cardano/module/serialization.py
(lines 57-82), as seen by `to_primitive` and the encoder: atoms, the mutable
containers, their frozen counterparts (`frozendict`, `frozenset`, frozen
`FrozenList` and `IndefiniteFrozenList`), tagged values, `RawCBOR`, a nested
`CBORSerializable` represented by its `to_shallow_primitive` result, and
`foreign` for any value outside the model (not a primitive, serializable or
container thereof). -/
inductive PyVal where
  | bytes (bs : Bytes)
  | str (s : String)
  | int (n : Int)
  | bool (b : Bool)
  | pyNone
  | serializable (shallow : PyVal)
  | dict (entries : List (PyVal × PyVal))
  | frozendictV (entries : List (PyVal × PyVal))
  | setV (xs : List PyVal)
  | frozensetV (xs : List PyVal)
  | tupleV (xs : List PyVal)
  | listV (xs : List PyVal)
  | frozenListV (xs : List PyVal)
  | indefiniteList (xs : List PyVal)
  | indefiniteFrozenList (xs : List PyVal)
  | tag (t : Nat) (inner : PyVal)
  | rawCBOR (cbor : Bytes)
  | foreign (typeName : String)

/-- The Python classes that appear as arguments of `limit_primitive_type`. -/
inductive PyType where
  | bytes
  | str
  | int
  | bool
  | list
  | dict
deriving DecidableEq

/-- `allowed_type.__name__`. -/
def PyType.pyName : PyType → String
  | .bytes => "bytes"
  | .str => "str"
  | .int => "int"
  | .bool => "bool"
  | .list => "list"
  | .dict => "dict"

/-- `type(value).__name__` for the modelled values. -/
def PyVal.typeName : PyVal → String
  | .bytes _ => "bytes"
  | .str _ => "str"
  | .int _ => "int"
  | .bool _ => "bool"
  | .pyNone => "NoneType"
  | .serializable _ => "CBORSerializable"
  | .dict _ => "dict"
  | .frozendictV _ => "frozendict"
  | .setV _ => "set"
  | .frozensetV _ => "frozenset"
  | .tupleV _ => "tuple"
  | .listV _ => "list"
  | .frozenListV _ => "FrozenList"
  | .indefiniteList _ => "IndefiniteList"
  | .indefiniteFrozenList _ => "IndefiniteFrozenList"
  | .tag _ _ => "CBORTag"
  | .rawCBOR _ => "RawCBOR"
  | .foreign t => t

/-- Python `isinstance` restricted to the modelled values and classes
(`bool` is a subclass of `int`, `frozendict` of `dict`). -/
def PyVal.isinstance : PyVal → PyType → Bool
  | .bytes _, .bytes => true
  | .str _, .str => true
  | .int _, .int => true
  | .bool _, .bool => true
  | .bool _, .int => true
  | .listV _, .list => true
  | .dict _, .dict => true
  | .frozendictV _, .dict => true
  | _, _ => false

/-- The bytes payload of a value already checked to be of kind `bytes`. -/
def PyVal.asBytes : PyVal → Bytes
  | .bytes bs => bs
  | _ => []

/-- `limit_primitive_type` (src/cardano/module/serialization.py lines
92-113): the returned wrapper raises `DeserializeException` when the value
is not an instance of one of the allowed types — the source formats the
allowed type names and the received type into the message — and otherwise
invokes the wrapped function on the value unchanged. -/
def limit_primitive_type {α : Type} (allowed : List PyType)
    (func : PyVal → Except PyErr α) (value : PyVal) : Except PyErr α :=
  if !(allowed.any (fun t => value.isinstance t)) then
    Except.error (PyErr.deserializeException (allowed.map PyType.pyName)
      value.typeName)
  else func value

/-- `Key.to_primitive` (src/cardano/module/key.py lines 61-62): the payload. -/
def Key.to_primitive (k : Key) : Bytes := k.payload

/-- `Key.from_primitive` (src/cardano/module/key.py lines 64-67): guarded by
`@limit_primitive_type(bytes)`, then `cls(value)`. -/
def Key.from_primitive (C : KeyClass) : PyVal → Except PyErr Key :=
  limit_primitive_type [PyType.bytes]
    (fun v => Except.ok (Key.init C v.asBytes Option.none Option.none))

/-- Claim C5: a `from_primitive` guarded by `limit_primitive_type` fails
with `DeserializeException` naming the allowed kinds and the received kind
whenever the value is not an instance of an allowed type, and otherwise
invokes the wrapped method unchanged on the value. -/
theorem limit_primitive_type_guard {α : Type} (allowed : List PyType)
    (func : PyVal → Except PyErr α) (value : PyVal) :
    (allowed.any (fun t => value.isinstance t) = false →
      limit_primitive_type allowed func value
        = Except.error (PyErr.deserializeException (allowed.map PyType.pyName)
            value.typeName))
    ∧ (allowed.any (fun t => value.isinstance t) = true →
      limit_primitive_type allowed func value = func value) := by
  constructor <;> intro h <;> simp [limit_primitive_type, h]

/-- Witness for C5 at `@limit_primitive_type(bytes)` with a `str` input and
with a `bytes` input. -/
theorem limit_primitive_type_guard_witness :
    limit_primitive_type [PyType.bytes] (fun _ => Except.ok (0 : Nat))
        (PyVal.str "x")
      = Except.error (PyErr.deserializeException ["bytes"] "str")
    ∧ limit_primitive_type [PyType.bytes] (fun _ => Except.ok (0 : Nat))
        (PyVal.bytes [1])
      = Except.ok 0 :=
  ⟨(limit_primitive_type_guard [PyType.bytes] _ (PyVal.str "x")).1 rfl,
    (limit_primitive_type_guard [PyType.bytes] _ (PyVal.bytes [1])).2 rfl⟩

/-- Counterexample to claim C4 as stated: a `Key` carrying non-default
`key_type` and `description` metadata does not survive the
`from_primitive (to_primitive x)` round trip up to `Key.__eq__`, because
`to_primitive` keeps only the payload. -/
theorem key_roundtrip_cex :
    (Key.from_primitive (KeyClass.mk "" "")
        (PyVal.bytes (Key.to_primitive
          (Key.init (KeyClass.mk "" "") [1] (Option.some "a")
            (Option.some "b"))))).map
      (fun k2 => Key.py_eq k2
        (Key.init (KeyClass.mk "" "") [1] (Option.some "a") (Option.some "b")))
      = Except.ok false := rfl

/-- Claim C4 (amended): the round trip
`from_primitive (to_primitive x) == x` holds exactly for keys whose
`key_type` and `description` both equal the class `KEY_TYPE` constant — the
values the constructor defaults produce; metadata is otherwise lost. -/
theorem key_roundtrip_default_metadata (C : KeyClass) (x : Key)
    (ht : x.key_type = C.KEY_TYPE) (hd : x.description = C.KEY_TYPE) :
    Key.from_primitive C (PyVal.bytes (Key.to_primitive x))
      = Except.ok (Key.init C x.payload Option.none Option.none)
    ∧ (Key.from_primitive C (PyVal.bytes (Key.to_primitive x))).map
        (fun k2 => Key.py_eq k2 x) = Except.ok true := by
  have h1 : Key.from_primitive C (PyVal.bytes (Key.to_primitive x))
      = Except.ok (Key.init C x.payload Option.none Option.none) := rfl
  refine ⟨h1, ?_⟩
  rw [h1]
  show Except.ok (Key.py_eq (Key.init C x.payload Option.none Option.none) x)
      = Except.ok true
  simp [Key.py_eq, Key.init, pyOr, ht, hd]

/-- Witness for C4 (amended) on a fresh `PaymentSigningKey`. -/
theorem key_roundtrip_default_metadata_witness :
    (Key.from_primitive PaymentSigningKey (PyVal.bytes (Key.to_primitive
        (Key.init PaymentSigningKey [5] Option.none Option.none)))).map
      (fun k2 => Key.py_eq k2
        (Key.init PaymentSigningKey [5] Option.none Option.none))
      = Except.ok true :=
  (key_roundtrip_default_metadata PaymentSigningKey
    (Key.init PaymentSigningKey [5] Option.none Option.none) rfl rfl).2

/-- Counterexample to claim C6 as stated: two keys that differ only in
`key_type` are unequal, yet hash identically for any payload hash, because
`Key.__hash__` is `hash(self.payload)` — it ignores the metadata. -/
theorem key_hash_ignores_metadata_cex :
    Key.py_hash (fun bs => Int.ofNat (leToNat bs))
        (Key.init (KeyClass.mk "" "") [1] (Option.some "t1") (Option.some "d"))
      = Key.py_hash (fun bs => Int.ofNat (leToNat bs))
        (Key.init (KeyClass.mk "" "") [1] (Option.some "t2") (Option.some "d"))
    ∧ Key.py_eq
        (Key.init (KeyClass.mk "" "") [1] (Option.some "t1") (Option.some "d"))
        (Key.init (KeyClass.mk "" "") [1] (Option.some "t2") (Option.some "d"))
      = false :=
  ⟨rfl, rfl⟩

/-- Claim C6 (amended): `Key.__eq__` is equality of the triple
`(payload, key_type, description)`, while `Key.__hash__` depends on the
payload alone — so equal keys hash equal, but keys differing only in
metadata also share a hash. -/
theorem key_eq_hash_characterisation (pyHash : Bytes → Int) (a b : Key) :
    (Key.py_eq a b = true ↔
      a.payload = b.payload ∧ a.key_type = b.key_type
        ∧ a.description = b.description)
    ∧ (a.payload = b.payload →
      Key.py_hash pyHash a = Key.py_hash pyHash b) := by
  constructor
  · simp only [Key.py_eq, Bool.and_eq_true, beq_iff_eq]
    tauto
  · intro h
    simp [Key.py_hash, h]

/-- Witness for C6 (amended): the hash agreement at concrete keys with the
same payload and different key types. -/
theorem key_eq_hash_characterisation_witness :
    Key.py_hash (fun bs => Int.ofNat (leToNat bs))
        (Key.init (KeyClass.mk "" "") [2] Option.none Option.none)
      = Key.py_hash (fun bs => Int.ofNat (leToNat bs))
        (Key.init (KeyClass.mk "" "") [2] (Option.some "x") Option.none) :=
  (key_eq_hash_characterisation (fun bs => Int.ofNat (leToNat bs))
    (Key.init (KeyClass.mk "" "") [2] Option.none Option.none)
    (Key.init (KeyClass.mk "" "") [2] (Option.some "x") Option.none)).2 rfl

/-- Counterexample to claim C10 as stated: when an explicit `key_type` is
passed but no `description`, the resulting description is the class
`KEY_TYPE` constant, which differs from the own `key_type` of the key. -/
theorem key_description_default_cex :
    (Key.init PaymentSigningKey [1] (Option.some "custom")
        Option.none).description
      ≠ (Key.init PaymentSigningKey [1] (Option.some "custom")
        Option.none).key_type := by
  decide

/-- Claim C10 (amended): a `Key` constructed without an explicit description
gets the class `KEY_TYPE` constant as its description (which coincides with
the `key_type` of the key when no explicit `key_type` is passed either), not the
class `DESCRIPTION` constant: a fresh `PaymentSigningKey` is described as
"PaymentSigningKeyShelley_ed25519", not "Payment Signing Key". -/
theorem key_description_defaults_to_key_type (C : KeyClass) (payload : Bytes)
    (kt : Option String) :
    (Key.init C payload kt Option.none).description = C.KEY_TYPE
    ∧ (Key.init C payload Option.none Option.none).description
      = (Key.init C payload Option.none Option.none).key_type
    ∧ (Key.init PaymentSigningKey payload Option.none Option.none).description
      = "PaymentSigningKeyShelley_ed25519"
    ∧ (Key.init PaymentSigningKey payload Option.none
        Option.none).description ≠ PaymentSigningKey.DESCRIPTION := by
  refine ⟨rfl, rfl, rfl, ?_⟩
  show ("PaymentSigningKeyShelley_ed25519" : String) ≠ "Payment Signing Key"
  decide

/-- Witness for C10 (amended) on a fresh `PaymentSigningKey`. -/
theorem key_description_defaults_to_key_type_witness :
    (Key.init PaymentSigningKey [9] Option.none Option.none).description
      = "PaymentSigningKeyShelley_ed25519" :=
  (key_description_defaults_to_key_type PaymentSigningKey [9]
    Option.none).2.2.1

/-- `ExtendedSigningKey.sign` (src/cardano/module/key.py lines 187-190):
builds `BIP32ED25519PrivateKey(self.payload[:64], self.payload[96:])` and
delegates to its `sign`. -/
def ExtendedSigningKey.sign (Point : Type) [AddCommGroup Point] (B : Point)
    (pointEnc : Point → Bytes) (SHA512 : Bytes → Bytes)
    (k : Key) (data : Bytes) : Bytes :=
  BIP32ED25519PrivateKey.sign Point B pointEnc SHA512
    { private_key := k.payload.take 64, chain_code := k.payload.drop 96 } data

/-- Claim C1: for every extended private key and message, `sign` returns the
64-byte concatenation `R || S` with `r = reduce(SHA512(right || m))`,
`R` the unclamped base-point multiple of `r`,
`h = reduce(SHA512(R || publicKey || m))` and `S = (h * left + r) mod L`,
with no clamping of the left half at sign time; `ExtendedSigningKey.sign`
delegates to the same computation on `payload[:64]` and `payload[96:]`. -/
theorem sign_eq_signSpec (Point : Type) [AddCommGroup Point] (B : Point)
    (pointEnc : Point → Bytes) (SHA512 : Bytes → Bytes)
    (k : BIP32ED25519PrivateKey) (m : Bytes) (key : Key) (data : Bytes) :
    BIP32ED25519PrivateKey.sign Point B pointEnc SHA512 k m
        = signSpec Point B pointEnc SHA512 k m
      ∧ ExtendedSigningKey.sign Point B pointEnc SHA512 key data
        = signSpec Point B pointEnc SHA512
            { private_key := key.payload.take 64
              chain_code := key.payload.drop 96 } data := by
  have main : ∀ (k1 : BIP32ED25519PrivateKey) (m1 : Bytes),
      BIP32ED25519PrivateKey.sign Point B pointEnc SHA512 k1 m1
        = signSpec Point B pointEnc SHA512 k1 m1 := by
    intro k1 m1
    simp only [BIP32ED25519PrivateKey.sign, signSpec,
      crypto_core_ed25519_scalar_reduce, crypto_core_ed25519_scalar_add,
      crypto_core_ed25519_scalar_mul, crypto_scalarmult_ed25519_base_noclamp,
      leToNat_natToLe32_mod_L, Nat.mod_add_mod]
  exact ⟨main k m, main _ data⟩

/-- Sequences a fallible function over a list in order (the Python list and
dict comprehensions inside `_dfs`). -/
def seqListO {α β : Type} (f : α → Except PyErr β) :
    List α → Except PyErr (List β)
  | [] => Except.ok []
  | x :: xs =>
    match f x with
    | Except.error e => Except.error e
    | Except.ok y =>
      match seqListO f xs with
      | Except.error e => Except.error e
      | Except.ok ys => Except.ok (y :: ys)

/-- The recursive `_dfs` helper of `CBORSerializable.to_primitive`
(src/cardano/module/serialization.py lines 164-201), with the Python call
stack modelled by fuel (exhaustion is a RecursionError). Branches in source
order: a nested CBORSerializable is converted by its own `to_primitive`
(its shallow step normalized at freeze=False) and the result normalized
again under the current flag; dict entries convert keys at freeze=True and
values at the current flag, the result becoming a `frozendict` in a frozen
context (the dict, OrderedDict and defaultdict variants are modelled by the
single `dict` constructor); set elements convert at freeze=True, freezing
to `frozenset`; tuples convert elementwise; lists convert elementwise and
freeze to a frozen `FrozenList` in a frozen context; `IndefiniteList`
likewise to `IndefiniteFrozenList`; `CBORTag` recurses into its inner
value; every other value — atoms and the already-frozen containers — is
returned unchanged by the final else branch. -/
def dfsFuel : Nat → PyVal → Bool → Except PyErr PyVal
  | 0, _, _ => Except.error PyErr.recursionError
  | n + 1, v, freeze =>
    match v with
    | PyVal.serializable shallow =>
      match dfsFuel n shallow false with
      | Except.error e => Except.error e
      | Except.ok inner => dfsFuel n inner freeze
    | PyVal.dict es =>
      match seqListO (fun kv =>
          match dfsFuel n kv.1 true with
          | Except.error e => Except.error e
          | Except.ok k2 =>
            match dfsFuel n kv.2 freeze with
            | Except.error e => Except.error e
            | Except.ok v2 => Except.ok (k2, v2)) es with
      | Except.error e => Except.error e
      | Except.ok es2 =>
        Except.ok (if freeze then PyVal.frozendictV es2 else PyVal.dict es2)
    | PyVal.setV xs =>
      match seqListO (fun x => dfsFuel n x true) xs with
      | Except.error e => Except.error e
      | Except.ok xs2 =>
        Except.ok (if freeze then PyVal.frozensetV xs2 else PyVal.setV xs2)
    | PyVal.tupleV xs =>
      match seqListO (fun x => dfsFuel n x freeze) xs with
      | Except.error e => Except.error e
      | Except.ok xs2 => Except.ok (PyVal.tupleV xs2)
    | PyVal.listV xs =>
      match seqListO (fun x => dfsFuel n x freeze) xs with
      | Except.error e => Except.error e
      | Except.ok xs2 =>
        Except.ok (if freeze then PyVal.frozenListV xs2 else PyVal.listV xs2)
    | PyVal.indefiniteList xs =>
      match seqListO (fun x => dfsFuel n x freeze) xs with
      | Except.error e => Except.error e
      | Except.ok xs2 =>
        Except.ok (if freeze then PyVal.indefiniteFrozenList xs2
          else PyVal.indefiniteList xs2)
    | PyVal.tag t inner =>
      match dfsFuel n inner freeze with
      | Except.error e => Except.error e
      | Except.ok i2 => Except.ok (PyVal.tag t i2)
    | other => Except.ok other

/-- `CBORSerializable.to_primitive` (serialization.py lines 152-202): the
shallow primitive of the object, normalized by `_dfs` with freeze initially
false. -/
def to_primitive (n : Nat) (shallow : PyVal) : Except PyErr PyVal :=
  dfsFuel n shallow false

mutual

/-- Normal form of a converted value under a freeze-context flag: no
serializable node remains, dictionary keys and set elements are normalized
in a frozen context, and in a frozen context no mutable container appears
(dict, set, list and IndefiniteList are replaced by their frozen forms). -/
def norm : Bool → PyVal → Bool
  | _, PyVal.bytes _ => true
  | _, PyVal.str _ => true
  | _, PyVal.int _ => true
  | _, PyVal.bool _ => true
  | _, PyVal.pyNone => true
  | _, PyVal.serializable _ => false
  | f, PyVal.dict es => !f && normEntriesWith false es
  | _, PyVal.frozendictV es => normEntriesWith true es
  | f, PyVal.setV xs => !f && normList true xs
  | _, PyVal.frozensetV xs => normList true xs
  | f, PyVal.tupleV xs => normList f xs
  | f, PyVal.listV xs => !f && normList false xs
  | _, PyVal.frozenListV xs => normList true xs
  | f, PyVal.indefiniteList xs => !f && normList false xs
  | _, PyVal.indefiniteFrozenList xs => normList true xs
  | f, PyVal.tag _ u => norm f u
  | _, PyVal.rawCBOR _ => true
  | _, PyVal.foreign _ => true

/-- Entries of a mapping: keys normalized frozen, values under `fv`. -/
def normEntriesWith : Bool → List (PyVal × PyVal) → Bool
  | _, [] => true
  | fv, (k, v) :: es => norm true k && norm fv v && normEntriesWith fv es

/-- Elements of a sequence, all normalized under the same flag. -/
def normList : Bool → List PyVal → Bool
  | _, [] => true
  | f, x :: xs => norm f x && normList f xs

end

mutual

/-- Admissible `_dfs` inputs: any frozen container already present must be
fully normalized (the source alone only produces frozen containers that
way); mutable containers, atoms and serializables are unrestricted. -/
def pre : PyVal → Bool
  | PyVal.bytes _ => true
  | PyVal.str _ => true
  | PyVal.int _ => true
  | PyVal.bool _ => true
  | PyVal.pyNone => true
  | PyVal.serializable s => pre s
  | PyVal.dict es => preEntries es
  | PyVal.frozendictV es => normEntriesWith true es
  | PyVal.setV xs => preList xs
  | PyVal.frozensetV xs => normList true xs
  | PyVal.tupleV xs => preList xs
  | PyVal.listV xs => preList xs
  | PyVal.frozenListV xs => normList true xs
  | PyVal.indefiniteList xs => preList xs
  | PyVal.indefiniteFrozenList xs => normList true xs
  | PyVal.tag _ u => pre u
  | PyVal.rawCBOR _ => true
  | PyVal.foreign _ => true

/-- Admissible entry lists of a mapping. -/
def preEntries : List (PyVal × PyVal) → Bool
  | [] => true
  | (k, v) :: es => pre k && pre v && preEntries es

/-- Admissible element lists of a sequence. -/
def preList : List PyVal → Bool
  | [] => true
  | x :: xs => pre x && preList xs

end

theorem seqListO_cons_ok {α β : Type} (f : α → Except PyErr β) (x : α)
    (xs : List α) (ys : List β)
    (h : seqListO f (x :: xs) = Except.ok ys) :
    ∃ y ys2, f x = Except.ok y ∧ seqListO f xs = Except.ok ys2
      ∧ ys = y :: ys2 := by
  cases hfx : f x with
  | error e => simp [seqListO, hfx] at h
  | ok y =>
    cases hrest : seqListO f xs with
    | error e => simp [seqListO, hfx, hrest] at h
    | ok ys2 =>
      simp only [seqListO, hfx, hrest] at h
      exact ⟨y, ys2, rfl, rfl, (Except.ok.inj h).symm⟩

theorem seqListO_dfs_elems (n : Nat) (f : Bool)
    (IH : ∀ v g w, pre v = true → dfsFuel n v g = Except.ok w →
      norm g w = true ∧ pre w = true) :
    ∀ xs ys, preList xs = true →
      seqListO (fun x => dfsFuel n x f) xs = Except.ok ys →
      normList f ys = true ∧ preList ys = true := by
  intro xs
  induction xs with
  | nil =>
    intro ys hp h
    simp only [seqListO] at h
    rw [← Except.ok.inj h]
    exact ⟨rfl, rfl⟩
  | cons x xs ih =>
    intro ys hp h
    obtain ⟨y, ys2, hfx, hrest, rfl⟩ := seqListO_cons_ok _ x xs ys h
    have hpx : pre x = true ∧ preList xs = true := by
      simpa [preList, Bool.and_eq_true] using hp
    obtain ⟨h1, h2⟩ := IH x f y hpx.1 hfx
    obtain ⟨h3, h4⟩ := ih ys2 hpx.2 hrest
    exact ⟨by simp [normList, h1, h3], by simp [preList, h2, h4]⟩

theorem seqListO_dfs_entries (n : Nat) (fv : Bool)
    (IH : ∀ v g w, pre v = true → dfsFuel n v g = Except.ok w →
      norm g w = true ∧ pre w = true) :
    ∀ es es2, preEntries es = true →
      seqListO (fun kv =>
        match dfsFuel n kv.1 true with
        | Except.error e => Except.error e
        | Except.ok k2 =>
          match dfsFuel n kv.2 fv with
          | Except.error e => Except.error e
          | Except.ok v2 => Except.ok (k2, v2)) es = Except.ok es2 →
      normEntriesWith fv es2 = true ∧ preEntries es2 = true := by
  intro es
  induction es with
  | nil =>
    intro es2 hp h
    simp only [seqListO] at h
    rw [← Except.ok.inj h]
    exact ⟨rfl, rfl⟩
  | cons kv es ih =>
    obtain ⟨k, v⟩ := kv
    intro es2 hp h
    obtain ⟨y, ys2, hfx, hrest, rfl⟩ := seqListO_cons_ok _ _ es es2 h
    have hpx : pre k = true ∧ pre v = true ∧ preEntries es = true := by
      simpa [preEntries, Bool.and_eq_true, and_assoc] using hp
    cases hk : dfsFuel n k true with
    | error e => simp [hk] at hfx
    | ok k2 =>
      cases hv : dfsFuel n v fv with
      | error e => simp [hk, hv] at hfx
      | ok v2 =>
        simp only [hk, hv] at hfx
        obtain ⟨h1, h2⟩ := IH k true k2 hpx.1 hk
        obtain ⟨h3, h4⟩ := IH v fv v2 hpx.2.1 hv
        obtain ⟨h5, h6⟩ := ih ys2 hpx.2.2 hrest
        rw [← Except.ok.inj hfx]
        exact ⟨by simp [normEntriesWith, h1, h3, h5],
          by simp [preEntries, h2, h4, h6]⟩

/-- The depth-first normalization invariant of `_dfs`: on admissible input
it either runs out of stack or yields a value in normal form for the
current freeze context, which is again admissible. -/
theorem dfs_norm : ∀ (n : Nat) (v : PyVal) (f : Bool) (w : PyVal),
    pre v = true → dfsFuel n v f = Except.ok w →
    norm f w = true ∧ pre w = true := by
  intro n
  induction n with
  | zero => intro v f w _ h; exact Except.noConfusion h
  | succ n ihn =>
    intro v f w hp h
    cases v with
    | bytes bs =>
      rw [← Except.ok.inj h]; exact ⟨by simp [norm], by simp [pre]⟩
    | str s =>
      rw [← Except.ok.inj h]; exact ⟨by simp [norm], by simp [pre]⟩
    | int m =>
      rw [← Except.ok.inj h]; exact ⟨by simp [norm], by simp [pre]⟩
    | bool b =>
      rw [← Except.ok.inj h]; exact ⟨by simp [norm], by simp [pre]⟩
    | pyNone =>
      rw [← Except.ok.inj h]; exact ⟨by simp [norm], by simp [pre]⟩
    | rawCBOR bs =>
      rw [← Except.ok.inj h]; exact ⟨by simp [norm], by simp [pre]⟩
    | foreign t =>
      rw [← Except.ok.inj h]; exact ⟨by simp [norm], by simp [pre]⟩
    | serializable s =>
      have hps : pre s = true := by simpa [pre] using hp
      cases h1 : dfsFuel n s false with
      | error e => simp [dfsFuel, h1] at h
      | ok inner =>
        simp only [dfsFuel, h1] at h
        obtain ⟨_, hp1⟩ := ihn s false inner hps h1
        exact ihn inner f w hp1 h
    | dict es =>
      have hps : preEntries es = true := by simpa [pre] using hp
      simp only [dfsFuel] at h
      split at h
      · exact Except.noConfusion h
      · rename_i es2 hseq
        obtain ⟨hn2, hp2⟩ := seqListO_dfs_entries n f ihn es es2 hps hseq
        rw [← Except.ok.inj h]
        cases f with
        | false => exact ⟨by simp [norm, hn2], by simp [pre, hp2]⟩
        | true => exact ⟨by simp [norm, hn2], by simp [pre, hn2]⟩
    | setV xs =>
      have hps : preList xs = true := by simpa [pre] using hp
      simp only [dfsFuel] at h
      split at h
      · exact Except.noConfusion h
      · rename_i xs2 hseq
        obtain ⟨hn2, hp2⟩ := seqListO_dfs_elems n true ihn xs xs2 hps hseq
        rw [← Except.ok.inj h]
        cases f with
        | false => exact ⟨by simp [norm, hn2], by simp [pre, hp2]⟩
        | true => exact ⟨by simp [norm, hn2], by simp [pre, hn2]⟩
    | tupleV xs =>
      have hps : preList xs = true := by simpa [pre] using hp
      simp only [dfsFuel] at h
      split at h
      · exact Except.noConfusion h
      · rename_i xs2 hseq
        obtain ⟨hn2, hp2⟩ := seqListO_dfs_elems n f ihn xs xs2 hps hseq
        rw [← Except.ok.inj h]
        exact ⟨by simp [norm, hn2], by simp [pre, hp2]⟩
    | listV xs =>
      have hps : preList xs = true := by simpa [pre] using hp
      simp only [dfsFuel] at h
      split at h
      · exact Except.noConfusion h
      · rename_i xs2 hseq
        obtain ⟨hn2, hp2⟩ := seqListO_dfs_elems n f ihn xs xs2 hps hseq
        rw [← Except.ok.inj h]
        cases f with
        | false => exact ⟨by simp [norm, hn2], by simp [pre, hp2]⟩
        | true => exact ⟨by simp [norm, hn2], by simp [pre, hn2]⟩
    | indefiniteList xs =>
      have hps : preList xs = true := by simpa [pre] using hp
      simp only [dfsFuel] at h
      split at h
      · exact Except.noConfusion h
      · rename_i xs2 hseq
        obtain ⟨hn2, hp2⟩ := seqListO_dfs_elems n f ihn xs xs2 hps hseq
        rw [← Except.ok.inj h]
        cases f with
        | false => exact ⟨by simp [norm, hn2], by simp [pre, hp2]⟩
        | true => exact ⟨by simp [norm, hn2], by simp [pre, hn2]⟩
    | frozendictV es =>
      have hps : normEntriesWith true es = true := by simpa [pre] using hp
      rw [← Except.ok.inj h]
      exact ⟨by simp [norm, hps], by simp [pre, hps]⟩
    | frozensetV xs =>
      have hps : normList true xs = true := by simpa [pre] using hp
      rw [← Except.ok.inj h]
      exact ⟨by simp [norm, hps], by simp [pre, hps]⟩
    | frozenListV xs =>
      have hps : normList true xs = true := by simpa [pre] using hp
      rw [← Except.ok.inj h]
      exact ⟨by simp [norm, hps], by simp [pre, hps]⟩
    | indefiniteFrozenList xs =>
      have hps : normList true xs = true := by simpa [pre] using hp
      rw [← Except.ok.inj h]
      exact ⟨by simp [norm, hps], by simp [pre, hps]⟩
    | tag t u =>
      have hps : pre u = true := by simpa [pre] using hp
      cases h1 : dfsFuel n u f with
      | error e => simp [dfsFuel, h1] at h
      | ok i2 =>
        simp only [dfsFuel, h1] at h
        obtain ⟨hn1, hp1⟩ := ihn u f i2 hps h1
        rw [← Except.ok.inj h]
        exact ⟨by simp [norm, hn1], by simp [pre, hp1]⟩

/-- Claim C7: `to_primitive` converts depth-first — a nested serializable
is converted by its own conversion (shallow step, then recursive
normalization) and the result normalized again; tagged values normalize
their inner value recursively; lists in a frozen context become the frozen
ordered form; and every successful result is in normal form: no
serializable remains, dictionary keys and set elements are frozen
containers (or immutable atoms), and no mutable container survives a
frozen context. -/
theorem to_primitive_normalizes :
    (∀ (n : Nat) (v : PyVal) (f : Bool) (w : PyVal), pre v = true →
      dfsFuel n v f = Except.ok w → norm f w = true)
    ∧ (∀ (n : Nat) (s : PyVal) (f : Bool),
      dfsFuel (n + 1) (PyVal.serializable s) f
        = (to_primitive n s).bind (fun inner => dfsFuel n inner f))
    ∧ (∀ (n : Nat) (t : Nat) (u : PyVal) (f : Bool),
      dfsFuel (n + 1) (PyVal.tag t u) f = (dfsFuel n u f).map (PyVal.tag t))
    ∧ (∀ (n : Nat) (xs : List PyVal),
      dfsFuel (n + 1) (PyVal.listV xs) true
        = (seqListO (fun x => dfsFuel n x true) xs).map PyVal.frozenListV) := by
  refine ⟨fun n v f w hp h => (dfs_norm n v f w hp h).1, ?_, ?_, ?_⟩
  · intro n s f
    simp only [dfsFuel, to_primitive]
    cases h : dfsFuel n s false <;> simp [Except.bind]
  · intro n t u f
    simp only [dfsFuel]
    cases h : dfsFuel n u f <;> simp [Except.map]
  · intro n xs
    simp only [dfsFuel]
    cases h : seqListO (fun x => dfsFuel n x true) xs <;> simp [Except.map]

/-- Witness for C7: a serializable whose shallow primitive is a dict with a
list key and a set value, normalized at fuel 5. -/
theorem to_primitive_normalizes_witness :
    norm false (PyVal.dict [(PyVal.frozenListV [PyVal.int 1],
        PyVal.setV [PyVal.bytes [2]])]) = true :=
  to_primitive_normalizes.1 5
    (PyVal.serializable (PyVal.dict [(PyVal.listV [PyVal.int 1],
      PyVal.setV [PyVal.bytes [2]])])) false
    (PyVal.dict [(PyVal.frozenListV [PyVal.int 1],
      PyVal.setV [PyVal.bytes [2]])])
    (by decide) rfl

/-- The CBOR head for major type `major` with argument `n` (RFC 8949), as
written by the underlying cbor2 encoder. -/
def cborHead (major n : Nat) : Bytes :=
  if n < 24 then [32 * major + n]
  else if n < 256 then [32 * major + 24, n]
  else if n < 65536 then [32 * major + 25, n / 256, n % 256]
  else if n < 4294967296 then
    [32 * major + 26, n / 16777216 % 256, n / 65536 % 256, n / 256 % 256,
      n % 256]
  else
    [32 * major + 27, n / 72057594037927936 % 256, n / 281474976710656 % 256,
      n / 1099511627776 % 256, n / 4294967296 % 256, n / 16777216 % 256,
      n / 65536 % 256, n / 256 % 256, n % 256]

/-- UTF-8 encoding of a single code point. -/
def charUtf8 (c : Char) : Bytes :=
  let n := c.toNat
  if n < 128 then [n]
  else if n < 2048 then [192 + n / 64, 128 + n % 64]
  else if n < 65536 then [224 + n / 4096, 128 + n / 64 % 64, 128 + n % 64]
  else [240 + n / 262144, 128 + n / 4096 % 64, 128 + n / 64 % 64,
    128 + n % 64]

/-- UTF-8 encoding of a string. -/
def utf8Bytes (s : String) : Bytes :=
  s.data.foldr (fun c acc => charUtf8 c ++ acc) []

/-- Concatenated encodings of the elements of a sequence, in order. -/
def encodeSeq (enc : PyVal → Except PyErr Bytes) :
    List PyVal → Except PyErr Bytes
  | [] => Except.ok []
  | x :: xs =>
    match enc x with
    | Except.error e => Except.error e
    | Except.ok b =>
      match encodeSeq enc xs with
      | Except.error e => Except.error e
      | Except.ok rest => Except.ok (b ++ rest)

/-- Concatenated encodings of the entries of a mapping, in order. -/
def encodeEntries (enc : PyVal → Except PyErr Bytes) :
    List (PyVal × PyVal) → Except PyErr Bytes
  | [] => Except.ok []
  | (k, v) :: es =>
    match enc k with
    | Except.error e => Except.error e
    | Except.ok bk =>
      match enc v with
      | Except.error e => Except.error e
      | Except.ok bv =>
        match encodeEntries enc es with
        | Except.error e => Except.error e
        | Except.ok rest => Except.ok (bk ++ bv ++ rest)

/-- `cbor2.dumps(x, default=default_encoder)` on the modelled values.
Standard primitives are written by the underlying cbor2 encoder (RFC 8949
heads; sets as tag 258 arrays). The fallback `default_encoder`
(serialization.py lines 393-425) adds: `IndefiniteList` and
`IndefiniteFrozenList` written as the indefinite-array start marker 0x9f,
each item encoded in order, then the break marker 0xff;
`RawCBOR` written verbatim without re-encoding; a frozen `FrozenList`
encoded as the corresponding definite list; a `frozendict` as the
corresponding dict; a `CBORSerializable` via `to_validated_primitive`
(`validate` passes on the modelled values, then `to_primitive`); and any
other object fails on the fallback assert, raising `AssertionError`.
The bounded Python call stack is the fuel. -/
def encodeValue : Nat → PyVal → Except PyErr Bytes
  | 0, _ => Except.error PyErr.recursionError
  | n + 1, v =>
    match v with
    | PyVal.bytes bs => Except.ok (cborHead 2 bs.length ++ bs)
    | PyVal.str s => Except.ok (cborHead 3 (utf8Bytes s).length ++ utf8Bytes s)
    | PyVal.int m =>
      if 0 ≤ m then Except.ok (cborHead 0 m.toNat)
      else Except.ok (cborHead 1 (-1 - m).toNat)
    | PyVal.bool b => Except.ok (if b then [245] else [244])
    | PyVal.pyNone => Except.ok [246]
    | PyVal.serializable s =>
      match to_primitive n s with
      | Except.error e => Except.error e
      | Except.ok p => encodeValue n p
    | PyVal.dict es =>
      match encodeEntries (encodeValue n) es with
      | Except.error e => Except.error e
      | Except.ok body => Except.ok (cborHead 5 es.length ++ body)
    | PyVal.frozendictV es =>
      match encodeEntries (encodeValue n) es with
      | Except.error e => Except.error e
      | Except.ok body => Except.ok (cborHead 5 es.length ++ body)
    | PyVal.setV xs =>
      match encodeSeq (encodeValue n) xs with
      | Except.error e => Except.error e
      | Except.ok body =>
        Except.ok (cborHead 6 258 ++ cborHead 4 xs.length ++ body)
    | PyVal.frozensetV xs =>
      match encodeSeq (encodeValue n) xs with
      | Except.error e => Except.error e
      | Except.ok body =>
        Except.ok (cborHead 6 258 ++ cborHead 4 xs.length ++ body)
    | PyVal.tupleV xs =>
      match encodeSeq (encodeValue n) xs with
      | Except.error e => Except.error e
      | Except.ok body => Except.ok (cborHead 4 xs.length ++ body)
    | PyVal.listV xs =>
      match encodeSeq (encodeValue n) xs with
      | Except.error e => Except.error e
      | Except.ok body => Except.ok (cborHead 4 xs.length ++ body)
    | PyVal.frozenListV xs =>
      match encodeSeq (encodeValue n) xs with
      | Except.error e => Except.error e
      | Except.ok body => Except.ok (cborHead 4 xs.length ++ body)
    | PyVal.indefiniteList xs =>
      match encodeSeq (encodeValue n) xs with
      | Except.error e => Except.error e
      | Except.ok body => Except.ok (0x9f :: (body ++ [0xff]))
    | PyVal.indefiniteFrozenList xs =>
      match encodeSeq (encodeValue n) xs with
      | Except.error e => Except.error e
      | Except.ok body => Except.ok (0x9f :: (body ++ [0xff]))
    | PyVal.tag t u =>
      match encodeValue n u with
      | Except.error e => Except.error e
      | Except.ok body => Except.ok (cborHead 6 t ++ body)
    | PyVal.rawCBOR bs => Except.ok bs
    | PyVal.foreign _ => Except.error PyErr.assertionError

/-- The definite-length array head never starts with the indefinite-array
marker 0x9f. -/
theorem cborHead4_ne_marker (n : Nat) :
    ∃ b rest, cborHead 4 n = b :: rest ∧ b ≠ 0x9f := by
  unfold cborHead
  split
  · exact ⟨_, _, rfl, by omega⟩
  · split
    · exact ⟨_, _, rfl, by omega⟩
    · split
      · exact ⟨_, _, rfl, by omega⟩
      · split
        · exact ⟨_, _, rfl, by omega⟩
        · exact ⟨_, _, rfl, by omega⟩

/-- Claim C8: an indefinite-length sequence is encoded as the
indefinite-array start marker 0x9f, the encoding of each element in
sequence order, and the break marker 0xff — not as a definite-length
array, whose encoding starts with a different head byte — and a raw
pass-through value is written verbatim. -/
theorem encode_indefinite_and_raw (n : Nat) (xs : List PyVal) (bs : Bytes)
    (w w2 : Bytes) :
    encodeValue (n + 1) (PyVal.indefiniteList xs)
        = (encodeSeq (encodeValue n) xs).map
          (fun body => 0x9f :: (body ++ [0xff]))
    ∧ encodeValue (n + 1) (PyVal.rawCBOR bs) = Except.ok bs
    ∧ (encodeValue (n + 1) (PyVal.indefiniteList xs) = Except.ok w →
        encodeValue (n + 1) (PyVal.listV xs) = Except.ok w2 →
        w.head? = Option.some 0x9f ∧ w2.head? ≠ Option.some 0x9f) := by
  refine ⟨?_, rfl, ?_⟩
  · simp only [encodeValue]
    cases h : encodeSeq (encodeValue n) xs <;> simp [Except.map]
  · intro hw hw2
    simp only [encodeValue] at hw hw2
    cases h : encodeSeq (encodeValue n) xs with
    | error e => rw [h] at hw; exact Except.noConfusion hw
    | ok body =>
      rw [h] at hw hw2
      rw [← Except.ok.inj hw, ← Except.ok.inj hw2]
      obtain ⟨b, rest, hhead, hb⟩ := cborHead4_ne_marker xs.length
      refine ⟨rfl, ?_⟩
      rw [hhead]
      simpa using hb

/-- Witness for C8 at the singleton indefinite list `[1]`. -/
theorem encode_indefinite_and_raw_witness :
    ([0x9f, 1, 0xff] : Bytes).head? = Option.some 0x9f
    ∧ ([0x81, 1] : Bytes).head? ≠ Option.some 0x9f :=
  (encode_indefinite_and_raw 1 [PyVal.int 1] [] [0x9f, 1, 0xff]
    [0x81, 1]).2.2 rfl rfl

/-- Counterexample to claim C9 as stated: the encoder fallback rejects a
value outside the model with the Python `AssertionError` (the bare `assert`
in `default_encoder`), not with a typed `UnsupportedTypeError`. -/
theorem encode_foreign_cex :
    encodeValue 1 (PyVal.foreign "object") = Except.error PyErr.assertionError
    ∧ encodeValue 1 (PyVal.foreign "object")
      ≠ Except.error PyErr.unsupportedTypeError := by
  refine ⟨rfl, ?_⟩
  intro h
  rw [show encodeValue 1 (PyVal.foreign "object")
    = Except.error PyErr.assertionError from rfl] at h
  exact PyErr.noConfusion (Except.error.inj h)

/-- Claim C9 (amended): encoding any value that is not a primitive, a
serializable or a container of these fails synchronously — but with
`AssertionError` from the `assert` in `default_encoder`, there being no
`UnsupportedTypeError` in the code; the failure also surfaces when such a
value sits inside a container. -/
theorem encode_foreign_fails (n : Nat) (t : String) (xs : List PyVal) :
    encodeValue (n + 1) (PyVal.foreign t) = Except.error PyErr.assertionError
    ∧ encodeValue (n + 2) (PyVal.listV (PyVal.foreign t :: xs))
      = Except.error PyErr.assertionError := by
  exact ⟨rfl, rfl⟩

end Cardano
